import Mathlib

/-!
Verification development for a minimal HTTP/1.1 server (single Rust source
file `src/main.rs`).  The server's pure request/response pipeline is shallowly
embedded here over `List Char`:

* `parse_request`, `parse_method`, `parse_version` mirror the parser;
* the route handlers and `dispatchRequest` mirror the dispatch match in
  `handle_connection`;
* `scanH` / `readBody` / `framedBytes` mirror the header-scan / body-read
  framing loop of `handle_connection`;
* `to_http_string` and `reason_phrase` mirror response serialization.

External effects are parameters: file reads are `List Char → Option (List Char)`,
file writes return a `FileWriteRes`, gzip encoding is an abstract
`List Char → Except Unit (List Nat)` together with a lossy byte-to-text
function, mirroring `flate2` + `String::from_utf8_lossy`.
-/

/-- Decidable equality for `Except`, so that concrete runs of the embedded
code can be checked by `decide`. -/
instance {ε α : Type _} [DecidableEq ε] [DecidableEq α] : DecidableEq (Except ε α) :=
  fun a b =>
    match a, b with
    | .ok x, .ok y => if h : x = y then .isTrue (by simp [h]) else .isFalse (by simp [h])
    | .ok _, .error _ => .isFalse (by simp)
    | .error _, .ok _ => .isFalse (by simp)
    | .error e, .error f => if h : e = f then .isTrue (by simp [h]) else .isFalse (by simp [h])

/-- Rebuild the head group of a split: `headCons c` prepends `c` to the first
piece of a non-empty piece list. -/
def headCons (c : Char) (ls : List (List Char)) : List (List Char) :=
  match ls with
  | [] => [[c]]
  | l :: t => (c :: l) :: t

/-- Split a character list at every character satisfying `p`, keeping empty
pieces (mirrors Rust `str::split` semantics). -/
def splitPred (p : Char → Bool) (s : List Char) : List (List Char) :=
  match s with
  | [] => [[]]
  | c :: rest => if p c then [] :: splitPred p rest else headCons c (splitPred p rest)

/-- Split at every occurrence of the character `sep` (Rust `str::split(sep)`). -/
def splitCh (sep : Char) (s : List Char) : List (List Char) :=
  splitPred (fun c => c = sep) s

/-- Whitespace test mirroring Rust `char::is_whitespace` (Unicode White_Space). -/
def isWS (c : Char) : Bool :=
  c = ' ' || c = '\t' || c = '\n' || c = '\u000B' || c = '\u000C' || c = '\r' ||
  c = '\u0085' || c = '\u00A0' || c = '\u1680' ||
  ('\u2000' ≤ c && c ≤ '\u200A') || c = '\u2028' || c = '\u2029' ||
  c = '\u202F' || c = '\u205F' || c = '\u3000'

/-- Whitespace-split into non-empty tokens (Rust `str::split_whitespace`). -/
def splitWS (s : List Char) : List (List Char) :=
  (splitPred isWS s).filter (fun l => !l.isEmpty)

/-- Trim leading and trailing whitespace (Rust `str::trim`). -/
def trimStr (s : List Char) : List Char :=
  ((s.dropWhile isWS).reverse.dropWhile isWS).reverse

/-- ASCII lower-casing of one character, as done by Rust `str::to_lowercase`
on ASCII input. -/
def charLower (c : Char) : Char :=
  if 'A' ≤ c ∧ c ≤ 'Z' then Char.ofNat (c.toNat + 32) else c

/-- Lower-case a string (ASCII part of Rust `str::to_lowercase`). -/
def lowerChars (s : List Char) : List Char := s.map charLower

/-- Parse a `usize` the way Rust `str::parse::<usize>()` does: optional
leading `+`, one or more ASCII digits, value must fit in 64 bits. -/
def parseUsize (s : List Char) : Option Nat :=
  let t := match s with
    | '+' :: r => r
    | _ => s
  if t = [] then none
  else if t.all Char.isDigit then
    let n := t.foldl (fun a c => a * 10 + (c.toNat - 48)) 0
    if n < 2 ^ 64 then some n else none
  else none

/-- Substring test: `containsSub hay needle` mirrors Rust `str::contains`. -/
def containsSub (hay needle : List Char) : Bool :=
  (List.range (hay.length + 1)).any fun i => needle.isPrefixOf (hay.drop i)

/-- Split on the first occurrence of `": "` (Rust `str::split_once(": ")`). -/
def splitOnceCS (s : List Char) : Option (List Char × List Char) :=
  match s with
  | [] => none
  | c :: rest =>
    if (": ".data).isPrefixOf (c :: rest) then some ([], rest.drop 1)
    else match splitOnceCS rest with
      | some (a, b) => some (c :: a, b)
      | none => none

/-- Insert into an association list with `HashMap::insert` semantics: replace
the value when the key is present, otherwise append. -/
def insertH (m : List (List Char × List Char)) (k v : List Char) :
    List (List Char × List Char) :=
  match m with
  | [] => [(k, v)]
  | kv :: rest => if kv.1 = k then (k, v) :: rest else kv :: insertH rest k v

/-- Lookup in an association list (`HashMap::get`). -/
def lookupH (m : List (List Char × List Char)) (k : List Char) :
    Option (List Char) :=
  (m.find? (fun kv => kv.1 = k)).map (fun kv => kv.2)

/-- Decimal digit rendering, fuel-driven so that it stays kernel-reducible. -/
def natCharsAux : Nat → Nat → List Char
  | 0, _ => []
  | _ + 1, 0 => []
  | f + 1, n + 1 => natCharsAux f ((n + 1) / 10) ++ [Nat.digitChar ((n + 1) % 10)]

/-- Decimal rendering of a natural number, as Rust `Display` for integers. -/
def natChars (n : Nat) : List Char :=
  if n = 0 then ['0'] else natCharsAux n n

/-- CRLF line terminator. -/
def crlf : List Char := ['\r', '\n']

/-- HTTP request method (the five literals the parser accepts). -/
inductive Method where
  | Get
  | Post
  | Put
  | Delete
  | Patch
deriving DecidableEq, Repr

/-- HTTP version label (recognized as a label only). -/
inductive Version where
  | Http1_0
  | Http1_1
  | Http2_0
deriving DecidableEq, Repr

/-- Parse errors of `parse_request` (source enum `ParseError`). -/
inductive ParseError where
  | invalidRequest
  | invalidMethod
  | invalidVersion
deriving DecidableEq, Repr

/-- Fatal per-connection framing errors of `handle_connection` (the `?`
propagations on `Content-Length` parsing and `read_exact`). -/
inductive ConnError where
  | malformedContentLength
  | shortBodyRead
deriving DecidableEq, Repr

/-- Outcome of the files-route write path (`File::create` then `write_all`). -/
inductive FileWriteRes where
  | createFailed
  | writeFailed
  | ok
deriving DecidableEq, Repr

/-- Parsed request (source struct `Request`). -/
structure Request where
  method : Method
  path : List Char
  version : Version
  headers : List (List Char × List Char)
  body : Option (List Char)
deriving DecidableEq, Repr

/-- Response value (source struct `Response`). -/
structure Response where
  status_code : Nat
  version : Version
  headers : List (List Char × List Char)
  body : Option (List Char)
  should_compress : Bool
deriving DecidableEq, Repr

/-- Method token recognition (source `parse_method`, case-sensitive). -/
def parse_method (m : List Char) : Except ParseError Method :=
  if m = "GET".data then .ok .Get
  else if m = "POST".data then .ok .Post
  else if m = "PUT".data then .ok .Put
  else if m = "DELETE".data then .ok .Delete
  else if m = "PATCH".data then .ok .Patch
  else .error .invalidMethod

/-- Version token recognition (source `parse_version`). -/
def parse_version (v : List Char) : Except ParseError Version :=
  if v = "HTTP/1.0".data then .ok .Http1_0
  else if v = "HTTP/1.1".data then .ok .Http1_1
  else if v = "HTTP/2.0".data then .ok .Http2_0
  else .error .invalidVersion

/-- Strip one trailing carriage return (used by `rustLines`). -/
def stripCR (l : List Char) : List Char :=
  if l.getLast? = some '\r' then l.dropLast else l

/-- Line iterator mirroring Rust `str::lines`: split on `'\n'`, strip a `'\r'`
that immediately preceded the `'\n'`, and do not yield a final empty line when
the input ends with a newline. -/
def rustLines (s : List Char) : List (List Char) :=
  let ps := splitCh '\n' s
  (ps.dropLast.map stripCR) ++
    (match ps.getLast? with
     | some [] => []
     | some l => [l]
     | none => [])

/-- Header/body line loop of `parse_request`: a line with a `": "` becomes a
header (key lower-cased, `HashMap::insert` replace-on-duplicate), any other
line overwrites the candidate body. -/
def processLines (ls : List (List Char)) (hs : List (List Char × List Char))
    (b : Option (List Char)) : List (List Char × List Char) × Option (List Char) :=
  match ls with
  | [] => (hs, b)
  | l :: rest =>
    match splitOnceCS l with
    | some (k, v) => processLines rest (insertH hs (lowerChars k) v) b
    | none => processLines rest hs (some l)

/-- Request parser (source `parse_request`): request line whitespace-split,
method/path/version taken from the first three tokens, then the header/body
line loop. -/
def parse_request (input : List Char) : Except ParseError Request :=
  match rustLines input with
  | [] => .error .invalidRequest
  | reqLine :: rest =>
    match splitWS reqLine with
    | [] => .error .invalidRequest
    | m :: tokens =>
      match parse_method m with
      | .error e => .error e
      | .ok method =>
        match tokens with
        | [] => .error .invalidRequest
        | p :: tokens2 =>
          match tokens2 with
          | [] => .error .invalidRequest
          | v :: _ =>
            match parse_version v with
            | .error e => .error e
            | .ok version =>
              let hb := processLines rest [] none
              .ok ⟨method, p, version, hb.1, hb.2⟩

/-- Root-route handler (source `handle_root_request`): 200, no headers, no body. -/
def handle_root_request (req : Request) : Response :=
  ⟨200, req.version, [], none, false⟩

/-- User-agent route handler (source `handle_user_agent_request`). -/
def handle_user_agent_request (req : Request) : Response :=
  let ua := lookupH req.headers ("user-agent".data)
  let hs := insertH (insertH [] ("Content-Type".data) ("text/plain".data))
    ("Content-Length".data)
    (match ua with
     | some s => natChars s.length
     | none => "0".data)
  ⟨200, req.version, hs, ua, false⟩

/-- Echo route handler (source `handle_echo_request`). -/
def handle_echo_request (req : Request) (echoStr : List Char) : Response :=
  let hs := insertH (insertH [] ("Content-Type".data) ("text/plain".data))
    ("Content-Length".data) (natChars echoStr.length)
  ⟨200, req.version, hs, some echoStr, false⟩

/-- Path of the file targeted by the files route: `format!("{}/{}", dir, name)`. -/
def filePath (dir name : List Char) : List Char := dir ++ "/".data ++ name

/-- Files route handler (source `handle_file_request`).  File reads are the
abstract `fr` (combining `File::open` and `read_to_string`, `none` on either
failure); writes are the abstract `fw` reporting create/write failure. -/
def handle_file_request (dir : Option (List Char))
    (fr : List Char → Option (List Char))
    (fw : List Char → List Char → FileWriteRes)
    (req : Request) (filename : List Char) : Response :=
  match dir with
  | some d =>
    let p := filePath d filename
    let hs0 := insertH [] ("Content-Type".data) ("application/octet-stream".data)
    match req.method with
    | .Get =>
      match fr p with
      | some content =>
        ⟨200, req.version, insertH hs0 ("Content-Length".data) (natChars content.length),
          some content, false⟩
      | none => ⟨404, req.version, [], none, false⟩
    | .Post =>
      match req.body with
      | some b =>
        match fw p b with
        | .createFailed => ⟨500, req.version, [], none, false⟩
        | .writeFailed => ⟨500, req.version, [], none, false⟩
        | .ok => ⟨201, req.version, hs0, some b, false⟩
      | none => ⟨500, req.version, [], none, false⟩
    | _ => ⟨500, req.version, [], none, false⟩
  | none => ⟨404, req.version, [], none, false⟩

/-- Catch-all 404 handler (source `handle_not_found`). -/
def handle_not_found (req : Request) : Response :=
  ⟨404, req.version, [], none, false⟩

/-- Fixed 500 response used when parsing fails
(source `handle_internal_server_error`). -/
def handle_internal_server_error : Response :=
  ⟨500, .Http1_1, [], none, false⟩

/-- Gzip advertisement check of `handle_connection`: the `accept-encoding`
header value, lower-cased, contains the substring `gzip`. -/
def gzipAdvertised (req : Request) : Bool :=
  match lookupH req.headers ("accept-encoding".data) with
  | some v => containsSub (lowerChars v) ("gzip".data)
  | none => false

/-- Route dispatch of `handle_connection` on a successfully parsed request:
slice-pattern match on the '/'-split path, with the gzip flag applied to the
echo and files arms. -/
def dispatchRequest (dir : Option (List Char))
    (fr : List Char → Option (List Char))
    (fw : List Char → List Char → FileWriteRes)
    (req : Request) : Response :=
  let supportsGzip := gzipAdvertised req
  match splitCh '/' req.path with
  | [a, b] =>
    if a = [] ∧ b = [] then handle_root_request req
    else if a = [] ∧ b = "user-agent".data then handle_user_agent_request req
    else handle_not_found req
  | [a, b, c] =>
    if a = [] ∧ b = "echo".data then
      let r := handle_echo_request req c
      if supportsGzip then { r with should_compress := true } else r
    else if a = [] ∧ b = "files".data then
      let r := handle_file_request dir fr fw req c
      if supportsGzip then { r with should_compress := true } else r
    else handle_not_found req
  | _ => handle_not_found req

/-- Response selection of `handle_connection` from the raw request bytes:
dispatch on parse success, fixed 500 on parse failure. -/
def dispatchBytes (dir : Option (List Char))
    (fr : List Char → Option (List Char))
    (fw : List Char → List Char → FileWriteRes)
    (bytes : List Char) : Response :=
  match parse_request bytes with
  | .ok req => dispatchRequest dir fr fw req
  | .error _ => handle_internal_server_error

/-- Content-Length update for one scanned header line (the
`starts_with("Content-Length:")` block of `handle_connection`): only a line
whose colon-split has exactly two parts updates the tracked length, and a
non-numeric value is the fatal error. -/
def clStep (line : List Char) (cl : Nat) : Except ConnError Nat :=
  if ("Content-Length:".data).isPrefixOf line then
    match splitCh ':' line with
    | [_, v] =>
      match parseUsize (trimStr v) with
      | some n => .ok n
      | none => .error .malformedContentLength
    | _ => .ok cl
  else .ok cl

/-- Header-scan loop of `handle_connection`, fused with `read_line`: `cur` is
the partial current line, `acc` the accumulated `request_lines` bytes, `cl`
the tracked Content-Length.  Returns the accumulated bytes, the final length
and the unread remainder of the stream. -/
def scanH (cur acc : List Char) (cl : Nat) (s : List Char) :
    Except ConnError (List Char × Nat × List Char) :=
  match s with
  | [] =>
    if trimStr cur = [] then .ok (acc, cl, [])
    else
      match clStep cur cl with
      | .error e => .error e
      | .ok cl2 => .ok (acc ++ cur, cl2, [])
  | c :: rest =>
    if c = '\n' then
      let line := cur ++ ['\n']
      if trimStr line = [] then .ok (acc, cl, rest)
      else
        match clStep line cl with
        | .error e => .error e
        | .ok cl2 => scanH [] (acc ++ line) cl2 rest
    else scanH (cur ++ [c]) acc cl rest

/-- Body read of `handle_connection` (`read_exact` into a buffer of the
tracked length): a short stream is the fatal error. -/
def readBody (n : Nat) (s : List Char) : Except ConnError (List Char × List Char) :=
  if n ≤ s.length then .ok (s.take n, s.drop n) else .error .shortBodyRead

/-- Raw request bytes assembled by `handle_connection`: scanned header lines,
plus exactly `content_length` body bytes when the tracked length is positive. -/
def framedBytes (input : List Char) : Except ConnError (List Char) :=
  match scanH [] [] 0 input with
  | .error e => .error e
  | .ok (req, cl, rest) =>
    if cl > 0 then
      match readBody cl rest with
      | .error e => .error e
      | .ok (b, _) => .ok (req ++ b)
    else .ok req

/-- Response produced by one connection (`handle_connection` up to choosing
the `Response`): `.error` means the connection is dropped with no response. -/
def connectionResponse (dir : Option (List Char))
    (fr : List Char → Option (List Char))
    (fw : List Char → List Char → FileWriteRes)
    (input : List Char) : Except ConnError Response :=
  match framedBytes input with
  | .error e => .error e
  | .ok bytes => .ok (dispatchBytes dir fr fw bytes)

/-- Reason phrase table (source `Response::reason_phrase`). -/
def reason_phrase (code : Nat) : List Char :=
  if code = 200 then "OK".data
  else if code = 201 then "Created".data
  else if code = 404 then "Not Found".data
  else if code = 500 then "Internal Server Error".data
  else "Unknown Status".data

/-- Version label (source `Version::to_str`). -/
def Version.to_str : Version → List Char
  | .Http1_0 => "HTTP/1.0".data
  | .Http1_1 => "HTTP/1.1".data
  | .Http2_0 => "HTTP/2.0".data

/-- Final header map and body of serialization (the compression block of
`Response::to_http_string`): on gzip success insert `Content-Encoding` and
recompute `Content-Length` from the compressed byte length; on gzip failure
fall back to the uncompressed body. -/
def bodyAndHeaders (gz : List Char → Except Unit (List Nat))
    (lossy : List Nat → List Char) (r : Response) :
    List (List Char × List Char) × List Char :=
  if r.should_compress ∧ r.body.isSome then
    match r.body with
    | some b =>
      match gz b with
      | .ok compressed =>
        (insertH (insertH r.headers ("Content-Encoding".data) ("gzip".data))
          ("Content-Length".data) (natChars compressed.length),
         lossy compressed)
      | .error _ => (r.headers, b)
    | none => (r.headers, [])
  else (r.headers, match r.body with | some b => b | none => [])

/-- Join pieces with a separator (Rust `Vec::join`). -/
def joinSep (sep : List Char) : List (List Char) → List Char
  | [] => []
  | [l] => l
  | l :: l2 :: t => l ++ sep ++ joinSep sep (l2 :: t)

/-- Serialized header block: each entry as `key: value`, joined by CRLF. -/
def renderHeaders (hs : List (List Char × List Char)) : List Char :=
  joinSep crlf (hs.map (fun kv => kv.1 ++ ": ".data ++ kv.2))

/-- Response serializer (source `Response::to_http_string`):
`format!("{}\r\n{}\r\n\r\n{}", status_line, headers, body)`. -/
def to_http_string (gz : List Char → Except Unit (List Nat))
    (lossy : List Nat → List Char) (r : Response) : List Char :=
  let hb := bodyAndHeaders gz lossy r
  let statusLine := r.version.to_str ++ [' '] ++ natChars r.status_code ++ [' '] ++
    reason_phrase r.status_code
  statusLine ++ crlf ++ renderHeaders hb.1 ++ crlf ++ crlf ++ hb.2

/-- Bytes written back on one connection (`handle_connection` end-to-end):
the serialized response, or a fatal framing error with nothing written. -/
def connectionOutput (gz : List Char → Except Unit (List Nat))
    (lossy : List Nat → List Char) (dir : Option (List Char))
    (fr : List Char → Option (List Char))
    (fw : List Char → List Char → FileWriteRes)
    (input : List Char) : Except ConnError (List Char) :=
  match connectionResponse dir fr fw input with
  | .error e => .error e
  | .ok r => .ok (to_http_string gz lossy r)

/-- Line split on CRLF pairs, for stating blank-line properties of the
serialized output. -/
def splitCRLF : List Char → List (List Char)
  | [] => [[]]
  | [c] => [[c]]
  | c :: c2 :: rest =>
    if c = '\r' ∧ c2 = '\n' then [] :: splitCRLF rest
    else headCons c (splitCRLF (c2 :: rest))

/-- Property "the serialized output has exactly one blank line between the
header section and the body": splitting the output on CRLF yields the status
line, then blank-free header lines, then exactly one empty line, then the rest. -/
def oneBlankSep (out : List Char) : Prop :=
  ∃ st hs b, splitCRLF out = st :: (hs ++ [[], b]) ∧ [] ∉ hs

/-- Dummy gzip encoder (always fails) used for concrete witnesses. -/
def gz0 : List Char → Except Unit (List Nat) := fun _ => .error ()

/-- Dummy lossy byte decoder used for concrete witnesses. -/
def lossy0 : List Nat → List Char := fun _ => []

/-- Dummy file reader (no file ever present) used for concrete witnesses. -/
def fr0 : List Char → Option (List Char) := fun _ => none

/-- Dummy file writer (every write succeeds) used for concrete witnesses. -/
def fw0 : List Char → List Char → FileWriteRes := fun _ _ => .ok

/-- Header block assembled from lines, each terminated by CRLF, as read by the
header-scan loop. -/
def joinCRLFLines (ls : List (List Char)) : List Char :=
  (ls.map (fun l => l ++ crlf)).flatten

/-- Statement vocabulary: a string free of carriage returns and line feeds. -/
def noCRLF (s : List Char) : Prop := '\r' ∉ s ∧ '\n' ∉ s

/-- Decidability of `noCRLF`, for concrete witnesses. -/
instance (s : List Char) : Decidable (noCRLF s) := by
  unfold noCRLF
  infer_instance

/-- Statement vocabulary: lower-casing the string changes nothing, i.e. the
string is already lower-case. -/
def isLowered (s : List Char) : Prop := lowerChars s = s

/-- Header pairs extracted from the lines after the request line, in input
order, with keys lower-cased — the sequence `parse_request` inserts. -/
def pairsOf (ls : List (List Char)) : List (List Char × List Char) :=
  ls.filterMap (fun l => (splitOnceCS l).map (fun kv => (lowerChars kv.1, kv.2)))

/-- One insertion step of the header fold. -/
def insStep (m : List (List Char × List Char)) (kv : List Char × List Char) :
    List (List Char × List Char) :=
  insertH m kv.1 kv.2

/-- Statement vocabulary: the paths on which the dispatcher applies the gzip
flag — a three-segment '/'-split whose first segment is empty and whose second
is `echo` or `files`. -/
def isCompressRoute (p : List Char) : Bool :=
  match splitCh '/' p with
  | [a, b, _] => decide (a = []) && (decide (b = "echo".data) || decide (b = "files".data))
  | _ => false

/-- Tail of `parse_request` once the three request-line tokens are fixed:
validate method and version, then run the header/body loop on the remaining
lines.  Used to state that tokens past the third are ignored. -/
def parseFromTokens (m p v : List Char) (rest : List (List Char)) :
    Except ParseError Request :=
  match parse_method m with
  | .error e => .error e
  | .ok method =>
    match parse_version v with
    | .error e => .error e
    | .ok version =>
      let hb := processLines rest [] none
      .ok ⟨method, p, version, hb.1, hb.2⟩

/-! Helper lemmas about the embedded string and scanning operations. -/

theorem char_le_iff {a b : Char} : a ≤ b ↔ a.toNat ≤ b.toNat := by
  rw [Char.le_def, UInt32.le_def, BitVec.le_def]
  exact Iff.rfl

theorem char_toNat_ofNat {n : Nat} (h : n < 55296) : (Char.ofNat n).toNat = n := by
  unfold Char.ofNat
  split
  · rfl
  · exact absurd (Or.inl h) (by assumption)

theorem charLower_toNat (c : Char) :
    (charLower c).toNat = if 65 ≤ c.toNat ∧ c.toNat ≤ 90 then c.toNat + 32 else c.toNat := by
  unfold charLower
  by_cases h : 'A' ≤ c ∧ c ≤ 'Z'
  · have h1 : 65 ≤ c.toNat := char_le_iff.mp h.1
    have h2 : c.toNat ≤ 90 := char_le_iff.mp h.2
    rw [if_pos h, if_pos ⟨h1, h2⟩, char_toNat_ofNat (by omega)]
  · have : ¬(65 ≤ c.toNat ∧ c.toNat ≤ 90) := by
      intro hc
      exact h ⟨char_le_iff.mpr hc.1, char_le_iff.mpr hc.2⟩
    rw [if_neg h, if_neg this]

theorem charLower_fix {x : Char} (hx : ¬('A' ≤ x ∧ x ≤ 'Z')) : charLower x = x := by
  unfold charLower
  rw [if_neg hx]

theorem charLower_not_upper (c : Char) : ¬('A' ≤ charLower c ∧ charLower c ≤ 'Z') := by
  intro h
  have h1 : 65 ≤ (charLower c).toNat := char_le_iff.mp h.1
  have h2 : (charLower c).toNat ≤ 90 := char_le_iff.mp h.2
  rw [charLower_toNat] at h1 h2
  by_cases hc : 65 ≤ c.toNat ∧ c.toNat ≤ 90
  · rw [if_pos hc] at h2
    omega
  · rw [if_neg hc] at h1 h2
    omega

theorem charLower_idem (c : Char) : charLower (charLower c) = charLower c :=
  charLower_fix (charLower_not_upper c)

theorem lowerChars_idem (s : List Char) : lowerChars (lowerChars s) = lowerChars s := by
  unfold lowerChars
  rw [List.map_map]
  exact List.map_congr_left fun c _ => charLower_idem c

theorem splitPred_cons (p : Char → Bool) (c : Char) (rest : List Char) :
    splitPred p (c :: rest) =
      if p c then [] :: splitPred p rest else headCons c (splitPred p rest) := rfl

theorem splitPred_ne_nil (p : Char → Bool) (s : List Char) : splitPred p s ≠ [] := by
  cases s with
  | nil => simp [splitPred]
  | cons c rest =>
    rw [splitPred_cons]
    split
    · simp
    · unfold headCons
      split <;> simp

theorem splitPred_no_match {p : Char → Bool} {s : List Char}
    (h : ∀ c ∈ s, p c = false) : splitPred p s = [s] := by
  induction s with
  | nil => rfl
  | cons c rest ih =>
    rw [splitPred_cons, h c (by simp), ih (fun x hx => h x (by simp [hx]))]
    rfl

theorem splitPred_append_match {p : Char → Bool} {a b : List Char} {m : Char}
    (ha : ∀ c ∈ a, p c = false) (hm : p m = true) :
    splitPred p (a ++ m :: b) = a :: splitPred p b := by
  induction a with
  | nil =>
    rw [List.nil_append, splitPred_cons, hm]
    simp
  | cons c t ih =>
    rw [List.cons_append, splitPred_cons, ha c (by simp),
      ih (fun x hx => ha x (by simp [hx])), headCons]
    simp

theorem trimStr_nil_iff {s : List Char} : trimStr s = [] ↔ ∀ c ∈ s, isWS c = true := by
  unfold trimStr
  rw [List.reverse_eq_nil_iff, List.dropWhile_eq_nil_iff]
  constructor
  · intro h c hc
    rcases List.mem_append.mp (by rw [List.takeWhile_append_dropWhile (p := isWS) (l := s)]; exact hc :
        c ∈ s.takeWhile isWS ++ s.dropWhile isWS) with h1 | h2
    · exact List.mem_takeWhile_imp h1
    · exact h c (by simpa using h2)
  · intro h c hc
    exact h c ((List.dropWhile_sublist isWS).subset (by simpa using hc))

theorem scanH_cons (cur acc : List Char) (cl : Nat) (c : Char) (rest : List Char) :
    scanH cur acc cl (c :: rest) =
      if c = '\n' then
        (if trimStr (cur ++ ['\n']) = [] then .ok (acc, cl, rest)
         else match clStep (cur ++ ['\n']) cl with
           | .error e => .error e
           | .ok cl2 => scanH [] (acc ++ (cur ++ ['\n'])) cl2 rest)
      else scanH (cur ++ [c]) acc cl rest := rfl

theorem scanH_line {l : List Char} (hl : '\n' ∉ l) (cur acc : List Char)
    (cl : Nat) (rest : List Char) :
    scanH cur acc cl (l ++ '\n' :: rest) =
      (if trimStr (cur ++ l ++ ['\n']) = [] then .ok (acc, cl, rest)
       else match clStep (cur ++ l ++ ['\n']) cl with
         | .error e => .error e
         | .ok cl2 => scanH [] (acc ++ (cur ++ l ++ ['\n'])) cl2 rest) := by
  induction l generalizing cur with
  | nil =>
    rw [List.nil_append, scanH_cons, if_pos rfl]
    simp
  | cons c t ih =>
    have hc : ¬(c = '\n') := fun h => hl (by simp [h])
    rw [List.cons_append, scanH_cons, if_neg hc, ih (fun h => hl (by simp [h]))]
    simp [List.append_assoc]

theorem clStep_skip {line : List Char}
    (h : ("Content-Length:".data).isPrefixOf line = false) (cl : Nat) :
    clStep line cl = .ok cl := by
  unfold clStep
  simp [h]

theorem trim_crlf_nil_iff {l : List Char} :
    trimStr (l ++ crlf) = [] ↔ trimStr l = [] := by
  rw [trimStr_nil_iff, trimStr_nil_iff]
  constructor
  · intro h c hc
    exact h c (by simp [hc])
  · intro h c hc
    rcases List.mem_append.mp hc with h1 | h2
    · exact h c h1
    · simp only [crlf] at h2
      fin_cases h2 <;> decide

theorem joinCRLFLines_cons (l : List Char) (t : List (List Char)) :
    joinCRLFLines (l :: t) = l ++ crlf ++ joinCRLFLines t := by
  simp [joinCRLFLines]

theorem scanH_skip {ls : List (List Char)}
    (h : ∀ l ∈ ls, '\n' ∉ l ∧ trimStr l ≠ [] ∧
      ("Content-Length:".data).isPrefixOf (l ++ crlf) = false)
    (acc : List Char) (cl : Nat) (tail : List Char) :
    scanH [] acc cl (joinCRLFLines ls ++ tail) =
      scanH [] (acc ++ joinCRLFLines ls) cl tail := by
  induction ls generalizing acc with
  | nil => simp [joinCRLFLines]
  | cons l t ih =>
    obtain ⟨h1, h2, h3⟩ := h l (by simp)
    have hsplit : joinCRLFLines (l :: t) ++ tail =
        (l ++ ['\r']) ++ '\n' :: (joinCRLFLines t ++ tail) := by
      simp [joinCRLFLines_cons, crlf]
    have hnl : '\n' ∉ l ++ ['\r'] := by simp [h1]
    rw [hsplit, scanH_line hnl]
    have hline : ([] : List Char) ++ (l ++ ['\r']) ++ ['\n'] = l ++ crlf := by
      simp [crlf]
    rw [hline]
    rw [if_neg (fun hh => h2 (trim_crlf_nil_iff.mp hh))]
    rw [clStep_skip h3]
    show scanH [] (acc ++ (l ++ crlf)) cl (joinCRLFLines t ++ tail) = _
    rw [ih (fun x hx => h x (by simp [hx])) (acc ++ (l ++ crlf))]
    rw [joinCRLFLines_cons]
    simp [List.append_assoc]

theorem scanH_blank (acc : List Char) (cl : Nat) (rest : List Char) :
    scanH [] acc cl (crlf ++ rest) = .ok (acc, cl, rest) := by
  have : crlf ++ rest = ['\r'] ++ '\n' :: rest := by simp [crlf]
  rw [this, scanH_line (by decide)]
  rw [if_pos (by decide)]

theorem clStep_malformed {v : List Char} (hv2 : ':' ∉ v)
    (hv3 : parseUsize (trimStr (v ++ crlf)) = none) (cl : Nat) :
    clStep ("Content-Length:".data ++ v ++ crlf) cl = .error .malformedContentLength := by
  have hpre : ("Content-Length:".data).isPrefixOf ("Content-Length:".data ++ v ++ crlf) = true := by
    rw [List.isPrefixOf_iff_prefix, List.append_assoc]
    exact List.prefix_append _ _
  have hassoc : "Content-Length:".data ++ v ++ crlf =
      "Content-Length".data ++ ':' :: (v ++ crlf) := by
    have : "Content-Length:".data = "Content-Length".data ++ [':'] := by decide
    rw [this]
    simp [List.append_assoc]
  have hsplit : splitCh ':' ("Content-Length:".data ++ v ++ crlf) =
      ["Content-Length".data, v ++ crlf] := by
    rw [hassoc]
    unfold splitCh
    rw [splitPred_append_match (by decide) (by simp)]
    rw [splitPred_no_match]
    intro c hc
    rcases List.mem_append.mp hc with h | h
    · simp only [decide_eq_false_iff_not]
      exact fun hcc => hv2 (hcc ▸ h)
    · simp only [crlf] at h
      fin_cases h <;> decide
  unfold clStep
  rw [if_pos hpre, hsplit]
  show (match parseUsize (trimStr (v ++ crlf)) with
    | some n => (Except.ok n : Except ConnError Nat)
    | none => .error .malformedContentLength) = _
  rw [hv3]

theorem scanH_badCL {v : List Char} (hv1 : '\n' ∉ v) (hv2 : ':' ∉ v)
    (hv3 : parseUsize (trimStr (v ++ crlf)) = none)
    (acc : List Char) (cl : Nat) (rest : List Char) :
    scanH [] acc cl ("Content-Length:".data ++ v ++ (crlf ++ rest)) =
      .error .malformedContentLength := by
  have hdecomp : "Content-Length:".data ++ v ++ (crlf ++ rest) =
      ("Content-Length:".data ++ v ++ ['\r']) ++ '\n' :: rest := by
    simp [crlf, List.append_assoc]
  have hnl : '\n' ∉ "Content-Length:".data ++ v ++ ['\r'] := by
    intro hmem
    rcases List.mem_append.mp hmem with h | h
    · rcases List.mem_append.mp h with h2 | h2
      · revert h2; decide
      · exact hv1 h2
    · revert h; decide
  rw [hdecomp, scanH_line hnl]
  have hline : ([] : List Char) ++ ("Content-Length:".data ++ v ++ ['\r']) ++ ['\n'] =
      "Content-Length:".data ++ v ++ crlf := by
    simp [crlf, List.append_assoc]
  rw [hline]
  have htrim : trimStr ("Content-Length:".data ++ v ++ crlf) ≠ [] := by
    intro hnil
    have hC : 'C' ∈ "Content-Length:".data ++ v ++ crlf :=
      List.mem_append_left _ (List.mem_append_left _ (by decide))
    have := trimStr_nil_iff.mp hnil 'C' hC
    revert this; decide
  rw [if_neg htrim, clStep_malformed hv2 hv3]

theorem handle_file_request_compress (dir : Option (List Char))
    (fr : List Char → Option (List Char)) (fw : List Char → List Char → FileWriteRes)
    (req : Request) (name : List Char) :
    (handle_file_request dir fr fw req name).should_compress = false := by
  unfold handle_file_request
  dsimp only
  repeat' split
  all_goals rfl

theorem processLines_snd (ls : List (List Char)) (hs : List (List Char × List Char))
    (b : Option (List Char)) :
    (processLines ls hs b).2 =
      (ls.reverse.find? (fun x => (splitOnceCS x).isNone)).or b := by
  induction ls generalizing hs b with
  | nil => simp [processLines]
  | cons l rest ih =>
    unfold processLines
    cases hsp : splitOnceCS l with
    | some kv =>
      rw [ih]
      simp [List.find?_append, hsp, Option.or_assoc]
    | none =>
      rw [ih]
      simp [List.find?_append, hsp, Option.or_assoc]

theorem processLines_fst (ls : List (List Char)) (hs : List (List Char × List Char))
    (b : Option (List Char)) :
    (processLines ls hs b).1 = (pairsOf ls).foldl insStep hs := by
  induction ls generalizing hs b with
  | nil => simp [processLines, pairsOf]
  | cons l rest ih =>
    unfold processLines
    cases hsp : splitOnceCS l with
    | some kv => simp [pairsOf, List.filterMap_cons, hsp, ih, insStep]
    | none => simp [pairsOf, List.filterMap_cons, hsp, ih]

theorem lookupH_cons (kv : List Char × List Char) (rest : List (List Char × List Char))
    (k : List Char) :
    lookupH (kv :: rest) k = if kv.1 = k then some kv.2 else lookupH rest k := by
  unfold lookupH
  by_cases h : kv.1 = k <;> simp [List.find?_cons, h]

theorem lookup_insertH (m : List (List Char × List Char)) (k v k2 : List Char) :
    lookupH (insertH m k v) k2 = if k = k2 then some v else lookupH m k2 := by
  induction m with
  | nil =>
    unfold insertH
    rw [lookupH_cons]
  | cons kv rest ih =>
    unfold insertH
    by_cases h1 : kv.1 = k
    · rw [if_pos h1, lookupH_cons, lookupH_cons]
      by_cases h2 : k = k2
      · simp [h2]
      · have hne : ¬(kv.1 = k2) := fun hx => h2 (h1.symm.trans hx)
        simp [h2, hne]
    · rw [if_neg h1, lookupH_cons, lookupH_cons, ih]
      by_cases h3 : kv.1 = k2
      · have hk : ¬(k = k2) := fun hk2 => h1 (h3.trans hk2.symm)
        simp [h3, hk]
      · simp [h3]

theorem lookup_foldl (ps : List (List Char × List Char))
    (m : List (List Char × List Char)) (k : List Char) :
    lookupH (ps.foldl insStep m) k =
      ((ps.reverse.find? (fun kv => kv.1 = k)).map (fun kv => kv.2)).or (lookupH m k) := by
  induction ps generalizing m with
  | nil => simp
  | cons q qs ih =>
    simp only [List.foldl_cons, List.reverse_cons, List.find?_append]
    rw [ih]
    cases hf : qs.reverse.find? (fun kv => kv.1 = k) with
    | some kv => simp [hf]
    | none =>
      simp only [hf, Option.map_none, Option.none_or]
      show lookupH (insertH m q.1 q.2) k = _
      rw [lookup_insertH]
      by_cases hq : q.1 = k
      · simp [List.find?_cons, hq]
      · simp [List.find?_cons, hq]

theorem mem_insertH {m : List (List Char × List Char)} {k v : List Char}
    {kv : List Char × List Char} (h : kv ∈ insertH m k v) : kv ∈ m ∨ kv = (k, v) := by
  induction m with
  | nil => simp [insertH] at h; simp [h]
  | cons q rest ih =>
    unfold insertH at h
    split at h
    · rcases List.mem_cons.mp h with h2 | h2
      · right; exact h2
      · left; exact List.mem_cons_of_mem _ h2
    · rcases List.mem_cons.mp h with h2 | h2
      · left; exact h2 ▸ List.mem_cons_self _ _
      · rcases ih h2 with h3 | h3
        · left; exact List.mem_cons_of_mem _ h3
        · right; exact h3

theorem isLowered_lowerChars (s : List Char) : isLowered (lowerChars s) :=
  lowerChars_idem s

theorem foldl_insStep_lowered (ps : List (List Char × List Char)) :
    ∀ (hs : List (List Char × List Char)),
      (∀ kv ∈ ps, isLowered kv.1) → (∀ kv ∈ hs, isLowered kv.1) →
      ∀ kv ∈ ps.foldl insStep hs, isLowered kv.1 := by
  induction ps with
  | nil =>
    intro hs _ hhs
    simpa using hhs
  | cons q qs ih =>
    intro hs hps hhs
    rw [List.foldl_cons]
    refine ih _ (fun kv hkv => hps kv (List.mem_cons_of_mem _ hkv)) ?_
    intro kv hkv
    rcases mem_insertH hkv with h2 | h2
    · exact hhs kv h2
    · rw [h2]
      exact hps q (List.mem_cons_self _ _)

theorem pairsOf_lowered (ls : List (List Char)) :
    ∀ kv ∈ pairsOf ls, isLowered kv.1 := by
  intro kv hkv
  rcases List.mem_filterMap.mp hkv with ⟨l, _, hl⟩
  cases hsp : splitOnceCS l with
  | none => rw [hsp] at hl; cases hl
  | some kv0 =>
    rw [hsp] at hl
    simp at hl
    rw [← hl]
    exact isLowered_lowerChars kv0.1

theorem parse_ok_fields (input : List Char) (r : Request)
    (hp : parse_request input = .ok r) :
    ∃ l tail, rustLines input = l :: tail ∧
      r.headers = (processLines tail [] none).1 ∧
      r.body = (processLines tail [] none).2 := by
  cases hr : rustLines input with
  | nil => unfold parse_request at hp; rw [hr] at hp; cases hp
  | cons l tail =>
    refine ⟨l, tail, rfl, ?_⟩
    unfold parse_request at hp
    rw [hr] at hp
    dsimp only at hp
    cases hts : splitWS l with
    | nil => rw [hts] at hp; cases hp
    | cons m ts =>
      rw [hts] at hp
      dsimp only at hp
      cases hpm : parse_method m with
      | error e => rw [hpm] at hp; cases hp
      | ok mm =>
        rw [hpm] at hp
        dsimp only at hp
        cases ts with
        | nil => cases hp
        | cons p ts2 =>
          cases ts2 with
          | nil => cases hp
          | cons v ts3 =>
            dsimp only at hp
            cases hpv : parse_version v with
            | error e => rw [hpv] at hp; cases hp
            | ok vv =>
              rw [hpv] at hp
              dsimp only at hp
              injection hp with hr2
              rw [← hr2]
              exact ⟨rfl, rfl⟩

theorem splitCRLF_cons2 (c c2 : Char) (rest : List Char) :
    splitCRLF (c :: c2 :: rest) =
      if c = '\r' ∧ c2 = '\n' then [] :: splitCRLF rest
      else headCons c (splitCRLF (c2 :: rest)) := rfl

theorem splitCRLF_no_cr {a : List Char} (h : '\r' ∉ a) : splitCRLF a = [a] := by
  induction a with
  | nil => rfl
  | cons c t ih =>
    cases t with
    | nil => rfl
    | cons c2 t2 =>
      have hc : ¬(c = '\r' ∧ c2 = '\n') := fun hh => h (by simp [hh.1])
      rw [splitCRLF_cons2, if_neg hc, ih (fun hm => h (List.mem_cons_of_mem _ hm))]
      rfl

theorem splitCRLF_append {a : List Char} (h : '\r' ∉ a) (b : List Char) :
    splitCRLF (a ++ '\r' :: '\n' :: b) = a :: splitCRLF b := by
  induction a with
  | nil => rw [List.nil_append, splitCRLF_cons2, if_pos ⟨rfl, rfl⟩]
  | cons c t ih =>
    have hcr : ¬(c = '\r') := fun hh => h (by simp [hh])
    cases t with
    | nil =>
      rw [List.cons_append, List.nil_append, splitCRLF_cons2,
        if_neg (fun hh => hcr hh.1), splitCRLF_cons2, if_pos ⟨rfl, rfl⟩, headCons]
    | cons c2 t2 =>
      rw [List.cons_append, List.cons_append, splitCRLF_cons2,
        if_neg (fun hh => hcr hh.1), ← List.cons_append,
        ih (fun hm => h (List.mem_cons_of_mem _ hm))]
      rfl

theorem splitCRLF_joinSep {ls : List (List Char)} (hne : ls ≠ [])
    (h : ∀ l ∈ ls, '\r' ∉ l) (y : List Char) :
    splitCRLF (joinSep crlf ls ++ '\r' :: '\n' :: y) = ls ++ splitCRLF y := by
  induction ls with
  | nil => exact absurd rfl hne
  | cons l t ih =>
    cases t with
    | nil =>
      rw [show joinSep crlf [l] = l from rfl, splitCRLF_append (h l (by simp))]
      rfl
    | cons l2 t2 =>
      have hj : joinSep crlf (l :: l2 :: t2) = l ++ crlf ++ joinSep crlf (l2 :: t2) := rfl
      have hassoc : joinSep crlf (l :: l2 :: t2) ++ '\r' :: '\n' :: y =
          l ++ '\r' :: '\n' :: (joinSep crlf (l2 :: t2) ++ '\r' :: '\n' :: y) := by
        rw [hj]
        simp [crlf, List.append_assoc]
      rw [hassoc, splitCRLF_append (h l (by simp)),
        ih (by simp) (fun x hx => h x (List.mem_cons_of_mem _ hx))]
      rfl

theorem natCharsAux_mem {f n : Nat} {c : Char} (h : c ∈ natCharsAux f n) :
    ∃ d, d < 10 ∧ c = Nat.digitChar d := by
  induction f generalizing n with
  | zero => cases h
  | succ f ih =>
    cases n with
    | zero => cases h
    | succ n =>
      unfold natCharsAux at h
      rcases List.mem_append.mp h with h1 | h1
      · exact ih h1
      · refine ⟨(n + 1) % 10, Nat.mod_lt _ (by omega), ?_⟩
        simpa using h1

theorem natChars_no_crlf (n : Nat) : '\r' ∉ natChars n ∧ '\n' ∉ natChars n := by
  have hd : ∀ d, d < 10 → Nat.digitChar d ≠ '\r' ∧ Nat.digitChar d ≠ '\n' := by decide
  unfold natChars
  split
  · constructor <;> decide
  · constructor <;> intro hm <;>
      obtain ⟨d, hd10, hc⟩ := natCharsAux_mem hm
    · exact (hd d hd10).1 hc.symm
    · exact (hd d hd10).2 hc.symm

theorem reason_phrase_no_crlf (code : Nat) :
    '\r' ∉ reason_phrase code ∧ '\n' ∉ reason_phrase code := by
  unfold reason_phrase
  repeat' split
  all_goals exact (by decide)

theorem version_no_crlf (ver : Version) :
    '\r' ∉ ver.to_str ∧ '\n' ∉ ver.to_str := by
  cases ver <;> exact (by decide)
/-! Claim theorems.  Each claim of the specification is settled by one
theorem below, together with a counterexample for the claims the code
refutes and a concrete witness for every theorem with hypotheses. -/

/-- C1 counterexample: on a request line that fails to parse (unknown method
`BAD`), the connection handler emits a response with status code 500, not the
404 the claim states. -/
theorem C1_not_404_counterexample :
    (connectionResponse none fr0 fw0 ("BAD\r\n\r\n".data)).map Response.status_code =
      .ok 500 ∧
    ¬((connectionResponse none fr0 fw0 ("BAD\r\n\r\n".data)).map Response.status_code =
      .ok 404) := by
  decide

/-- C1 (amended): for every input whose framed bytes fail to parse (malformed
request line, unknown method, or unknown version), the connection handler
emits the fixed 500 Internal Server Error response — not a 404 — and still
responds and closes normally (the serialized response is written back). -/
theorem C1_parse_failure_emits_500 (gz : List Char → Except Unit (List Nat))
    (lossy : List Nat → List Char)
    (dir : Option (List Char)) (fr : List Char → Option (List Char))
    (fw : List Char → List Char → FileWriteRes) (input bytes : List Char)
    (h1 : framedBytes input = .ok bytes) (h2 : (parse_request bytes).isOk = false) :
    connectionResponse dir fr fw input = .ok handle_internal_server_error ∧
    handle_internal_server_error.status_code = 500 ∧
    connectionOutput gz lossy dir fr fw input =
      .ok (to_http_string gz lossy handle_internal_server_error) := by
  have hdisp : dispatchBytes dir fr fw bytes = handle_internal_server_error := by
    unfold dispatchBytes
    cases hp : parse_request bytes with
    | ok r => exfalso; rw [hp] at h2; simp [Except.isOk, Except.toBool] at h2
    | error e => rfl
  have hresp : connectionResponse dir fr fw input = .ok handle_internal_server_error := by
    unfold connectionResponse
    rw [h1]
    show Except.ok (dispatchBytes dir fr fw bytes) = _
    rw [hdisp]
  exact ⟨hresp, rfl, by unfold connectionOutput; rw [hresp]⟩

/-- C1 witness: concrete run on `NOPE\r\n\r\n` (unknown method). -/
theorem C1_parse_failure_witness :
    connectionResponse none fr0 fw0 ("NOPE\r\n\r\n".data) =
      .ok handle_internal_server_error ∧
    handle_internal_server_error.status_code = 500 ∧
    connectionOutput gz0 lossy0 none fr0 fw0 ("NOPE\r\n\r\n".data) =
      .ok (to_http_string gz0 lossy0 handle_internal_server_error) :=
  C1_parse_failure_emits_500 gz0 lossy0 none fr0 fw0 ("NOPE\r\n\r\n".data)
    ("NOPE\r\n".data) (by decide) (by decide)

/-- C2 counterexample: a POST to the files route with `accept-encoding: gzip`
gets `should_compress = true` even though its method is not GET, refuting the
claim that non-GET files responses always have `should_compress = false`. -/
theorem C2_files_post_counterexample :
    (dispatchRequest none fr0 fw0
      ⟨.Post, "/files/x".data, .Http1_1,
        [("accept-encoding".data, "gzip".data)], none⟩).should_compress = true ∧
    Method.Post ≠ Method.Get := by
  decide

/-- C2 (amended): the dispatcher's `should_compress` flag equals "the client
advertised gzip" AND "the path is an echo or files route" — the files route
gets the flag for every method, not only GET; root, user-agent and unmatched
paths never get it. -/
theorem C2_compress_flag_routes (dir : Option (List Char))
    (fr : List Char → Option (List Char))
    (fw : List Char → List Char → FileWriteRes) (req : Request) :
    (dispatchRequest dir fr fw req).should_compress =
      (gzipAdvertised req && isCompressRoute req.path) := by
  unfold dispatchRequest isCompressRoute
  cases hs : splitCh '/' req.path with
  | nil => simp [handle_not_found]
  | cons a t =>
    cases t with
    | nil => simp [handle_not_found]
    | cons b t2 =>
      cases t2 with
      | nil =>
        by_cases h1 : a = [] ∧ b = []
        · simp [h1, handle_root_request]
        · by_cases h2 : a = [] ∧ b = "user-agent".data
          · simp [h1, h2, handle_user_agent_request]
          · simp [h1, h2, handle_not_found]
      | cons c t3 =>
        cases t3 with
        | nil =>
          by_cases h1 : a = [] ∧ b = "echo".data
          · by_cases hg : gzipAdvertised req
            · simp [h1, hg, handle_echo_request]
            · simp only [Bool.not_eq_true] at hg
              simp [h1, hg, handle_echo_request]
          · by_cases h2 : a = [] ∧ b = "files".data
            · by_cases hg : gzipAdvertised req
              · simp [h1, h2, hg]
              · simp only [Bool.not_eq_true] at hg
                simp [h1, h2, hg, handle_file_request_compress]
            · have hr : (decide (a = []) &&
                  (decide (b = "echo".data) || decide (b = "files".data))) = false := by
                rcases Decidable.em (a = []) with ha | ha
                · subst ha
                  have hb1 : b ≠ "echo".data := fun hb => h1 ⟨rfl, hb⟩
                  have hb2 : b ≠ "files".data := fun hb => h2 ⟨rfl, hb⟩
                  simp [hb1, hb2]
                · simp [ha]
              simp [h1, h2, handle_not_found, hr]
        | cons d t4 => simp [handle_not_found]

/-- C3 counterexample: a request line with four whitespace tokens parses
successfully — the parser does not require exactly three tokens. -/
theorem C3_extra_tokens_counterexample :
    (splitWS ("GET / HTTP/1.1 extra".data)).length = 4 ∧
    (parse_request ("GET / HTTP/1.1 extra\r\n".data)).isOk = true := by
  decide

/-- C3 (amended): a request line with fewer than three whitespace tokens
makes `parse_request` fail (with `InvalidRequest` at the missing token, or
`InvalidMethod` if the first token is already invalid), while tokens beyond
the third are ignored: the result only depends on the first three tokens and
the remaining lines. -/
theorem C3_request_line_token_count (input l : List Char) (tail : List (List Char))
    (h : rustLines input = l :: tail) :
    ((splitWS l).length < 3 → (parse_request input).isOk = false) ∧
    (∀ m p v extra, splitWS l = m :: p :: v :: extra →
      parse_request input = parseFromTokens m p v tail) := by
  constructor
  · intro hlen
    unfold parse_request
    rw [h]
    dsimp only
    cases hts : splitWS l with
    | nil => rfl
    | cons m ts =>
      dsimp only
      cases hpm : parse_method m with
      | error e => rfl
      | ok mm =>
        cases ts with
        | nil => rfl
        | cons p ts2 =>
          cases ts2 with
          | nil => rfl
          | cons v ts3 =>
            exfalso
            rw [hts] at hlen
            simp at hlen
            omega
  · intro m p v extra hts
    unfold parse_request parseFromTokens
    rw [h]
    dsimp only
    rw [hts]

/-- C3 witness: `GET` alone (one token) is rejected. -/
theorem C3_short_line_witness : (parse_request ("GET\r\n".data)).isOk = false :=
  (C3_request_line_token_count ("GET\r\n".data) ("GET".data) [] (by decide)).1 (by decide)

/-- C4 counterexample: serializing a response with an empty header map (the
404 response) produces two blank lines between the status line and the body,
not exactly one. -/
theorem C4_empty_headers_counterexample :
    ¬ oneBlankSep (to_http_string gz0 lossy0 ⟨404, .Http1_1, [], none, false⟩) := by
  intro hob
  obtain ⟨st, hs, b, heq, hmem⟩ := hob
  have hsplit : splitCRLF (to_http_string gz0 lossy0 ⟨404, .Http1_1, [], none, false⟩) =
      ["HTTP/1.1 404 Not Found".data, [], [], []] := by decide
  rw [hsplit] at heq
  injection heq with h1 h2
  cases hs with
  | nil => simp at h2
  | cons x t =>
    cases t with
    | nil =>
      have h2x : ([[], [], []] : List (List Char)) = x :: [[], b] := by simpa using h2
      injection h2x with ha _
      exact hmem (by rw [← ha]; exact List.mem_singleton_self [])
    | cons y t2 =>
      have hlen := congrArg List.length h2
      simp at hlen

/-- C4 (amended): the serialized output has exactly one blank line between the
header section and the body whenever at least one header is present (and the
headers and body are CRLF-free); with an empty header map an extra blank line
appears, as the counterexample shows. -/
theorem C4_one_blank_line_nonempty_headers (gz : List Char → Except Unit (List Nat))
    (lossy : List Nat → List Char)
    (r : Response) (h1 : r.should_compress = false) (h2 : r.headers ≠ [])
    (h3 : ∀ kv ∈ r.headers, noCRLF kv.1 ∧ noCRLF kv.2)
    (h4 : noCRLF (match r.body with | some b => b | none => [])) :
    oneBlankSep (to_http_string gz lossy r) := by
  have hbh : bodyAndHeaders gz lossy r =
      (r.headers, match r.body with | some b => b | none => []) := by
    unfold bodyAndHeaders
    rw [if_neg (fun hc => by rw [h1] at hc; exact Bool.false_ne_true hc.1)]
  unfold to_http_string
  rw [hbh]
  dsimp only
  refine ⟨r.version.to_str ++ [' '] ++ natChars r.status_code ++ [' '] ++
    reason_phrase r.status_code,
    r.headers.map (fun kv => kv.1 ++ ": ".data ++ kv.2),
    (match r.body with | some b => b | none => []), ?_, ?_⟩
  · have hSL : '\r' ∉ r.version.to_str ++ [' '] ++ natChars r.status_code ++ [' '] ++
        reason_phrase r.status_code := by
      intro hm
      rcases List.mem_append.mp hm with hm | hm
      · rcases List.mem_append.mp hm with hm | hm
        · rcases List.mem_append.mp hm with hm | hm
          · rcases List.mem_append.mp hm with hm | hm
            · exact (version_no_crlf r.version).1 hm
            · revert hm; decide
          · exact (natChars_no_crlf r.status_code).1 hm
        · revert hm; decide
      · exact (reason_phrase_no_crlf r.status_code).1 hm
    have hout : r.version.to_str ++ [' '] ++ natChars r.status_code ++ [' '] ++
        reason_phrase r.status_code ++ crlf ++
        renderHeaders r.headers ++ crlf ++ crlf ++
        (match r.body with | some b => b | none => []) =
        (r.version.to_str ++ [' '] ++ natChars r.status_code ++ [' '] ++
          reason_phrase r.status_code) ++ '\r' :: '\n' ::
          (joinSep crlf (r.headers.map (fun kv => kv.1 ++ ": ".data ++ kv.2)) ++
            '\r' :: '\n' :: ('\r' :: '\n' ::
              (match r.body with | some b => b | none => []))) := by
      unfold renderHeaders
      simp [crlf, List.append_assoc]
    rw [hout, splitCRLF_append hSL]
    have hmapne : r.headers.map (fun kv => kv.1 ++ ": ".data ++ kv.2) ≠ [] := by
      simpa using h2
    have hmapcr : ∀ l ∈ r.headers.map (fun kv => kv.1 ++ ": ".data ++ kv.2),
        '\r' ∉ l := by
      intro l hl
      rcases List.mem_map.mp hl with ⟨kv, hkv, hrev⟩
      rw [← hrev]
      intro hm
      rcases List.mem_append.mp hm with hm | hm
      · rcases List.mem_append.mp hm with hm | hm
        · exact ((h3 kv hkv).1).1 hm
        · revert hm; decide
      · exact ((h3 kv hkv).2).1 hm
    rw [splitCRLF_joinSep hmapne hmapcr, splitCRLF_cons2, if_pos ⟨rfl, rfl⟩,
      splitCRLF_no_cr h4.1]
  · intro hmem
    rcases List.mem_map.mp hmem with ⟨kv, _, hrev⟩
    have : kv.1 ++ ": ".data ++ kv.2 ≠ [] := by simp
    exact this hrev

/-- C4 witness: a concrete response with one header. -/
theorem C4_blank_line_witness :
    oneBlankSep (to_http_string gz0 lossy0
      ⟨200, .Http1_1, [("Content-Type".data, "text/plain".data)],
        some ("abc".data), false⟩) :=
  C4_one_blank_line_nonempty_headers gz0 lossy0
    ⟨200, .Http1_1, [("Content-Type".data, "text/plain".data)], some ("abc".data), false⟩
    rfl (by decide) (by decide) (by decide)

/-- C5 counterexample: with input `GET / HTTP/1.1\n\na\nb` the parsed body is
the single line `b`, not the lines after the blank line joined with their
separators (`a\nb`), refuting the claim. -/
theorem C5_join_counterexample :
    (match parse_request ("GET / HTTP/1.1\n\na\nb".data) with
      | .ok r => r.body
      | .error _ => none) = some ['b'] ∧
    some ['b'] ≠ some ('a' :: '\n' :: 'b' :: []) := by
  decide

/-- C5 (amended): on every successful parse the body is the LAST line after
the request line that contains no `": "` separator (each such line overwrites
the previous candidate; lines with `": "` after the blank line still become
headers); such a line is never a parse error. -/
theorem C5_body_last_unseparated_line (input l : List Char)
    (tail : List (List Char)) (r : Request)
    (h : rustLines input = l :: tail) (hp : parse_request input = .ok r) :
    r.body = tail.reverse.find? (fun x => (splitOnceCS x).isNone) := by
  unfold parse_request at hp
  rw [h] at hp
  dsimp only at hp
  cases hts : splitWS l with
  | nil => rw [hts] at hp; cases hp
  | cons m ts =>
    rw [hts] at hp
    dsimp only at hp
    cases hpm : parse_method m with
    | error e => rw [hpm] at hp; cases hp
    | ok mm =>
      rw [hpm] at hp
      dsimp only at hp
      cases ts with
      | nil => cases hp
      | cons p ts2 =>
        cases ts2 with
        | nil => cases hp
        | cons v ts3 =>
          dsimp only at hp
          cases hpv : parse_version v with
          | error e => rw [hpv] at hp; cases hp
          | ok vv =>
            rw [hpv] at hp
            dsimp only at hp
            injection hp with hr
            rw [← hr]
            dsimp only
            rw [processLines_snd]
            simp

/-- C5 witness: concrete parse whose body is the last colon-free line. -/
theorem C5_body_witness :
    (⟨.Get, "/".data, .Http1_1, [("foo".data, "bar".data)],
      some ("xyz".data)⟩ : Request).body =
      (["Foo: bar".data, [], "xyz".data] : List (List Char)).reverse.find?
        (fun x => (splitOnceCS x).isNone) :=
  C5_body_last_unseparated_line ("GET / HTTP/1.1\nFoo: bar\n\nxyz".data)
    ("GET / HTTP/1.1".data) (["Foo: bar".data, [], "xyz".data])
    ⟨.Get, "/".data, .Http1_1, [("foo".data, "bar".data)], some ("xyz".data)⟩
    (by decide) (by decide)

/-- C6 counterexample: a Content-Length value that itself contains a colon
(`12:34`) is non-numeric, yet the colon-split has three parts, the header is
silently ignored, and the connection answers normally with a 200 response
instead of failing fatally. -/
theorem C6_colon_value_counterexample :
    parseUsize (trimStr (" 12:34".data)) = none ∧
    connectionResponse none fr0 fw0
      ("GET / HTTP/1.1\r\nContent-Length: 12:34\r\n\r\n".data) =
      .ok ⟨200, .Http1_1, [], none, false⟩ := by
  decide

/-- C6 (amended): when a header line is `Content-Length:` followed by a value
with no further colon whose trimmed text does not parse as a usize, the
failure is fatal for that connection: the handler returns the
malformed-Content-Length error before dispatch, and nothing is written back.
(A value containing another colon is silently ignored instead, per the
counterexample.) -/
theorem C6_malformed_content_length_fatal (gz : List Char → Except Unit (List Nat))
    (lossy : List Nat → List Char)
    (dir : Option (List Char)) (fr : List Char → Option (List Char))
    (fw : List Char → List Char → FileWriteRes)
    (ls : List (List Char)) (v rest : List Char)
    (h : ∀ l ∈ ls, '\n' ∉ l ∧ trimStr l ≠ [] ∧
      ("Content-Length:".data).isPrefixOf (l ++ crlf) = false)
    (hv1 : '\n' ∉ v) (hv2 : ':' ∉ v)
    (hv3 : parseUsize (trimStr (v ++ crlf)) = none) :
    connectionResponse dir fr fw
      (joinCRLFLines ls ++ ("Content-Length:".data ++ v ++ (crlf ++ rest)))
      = .error .malformedContentLength ∧
    connectionOutput gz lossy dir fr fw
      (joinCRLFLines ls ++ ("Content-Length:".data ++ v ++ (crlf ++ rest)))
      = .error .malformedContentLength := by
  have hscan : scanH [] [] 0
      (joinCRLFLines ls ++ ("Content-Length:".data ++ v ++ (crlf ++ rest)))
      = .error .malformedContentLength := by
    rw [scanH_skip h, scanH_badCL hv1 hv2 hv3]
  have hresp : connectionResponse dir fr fw
      (joinCRLFLines ls ++ ("Content-Length:".data ++ v ++ (crlf ++ rest)))
      = .error .malformedContentLength := by
    unfold connectionResponse framedBytes
    rw [hscan]
  exact ⟨hresp, by unfold connectionOutput; rw [hresp]⟩

/-- C6 witness: concrete fatal run with value ` oops`. -/
theorem C6_fatal_witness :
    connectionResponse none fr0 fw0
      (joinCRLFLines ["GET /x HTTP/1.1".data] ++
        ("Content-Length:".data ++ " oops".data ++ (crlf ++ [])))
      = .error .malformedContentLength ∧
    connectionOutput gz0 lossy0 none fr0 fw0
      (joinCRLFLines ["GET /x HTTP/1.1".data] ++
        ("Content-Length:".data ++ " oops".data ++ (crlf ++ [])))
      = .error .malformedContentLength :=
  C6_malformed_content_length_fatal gz0 lossy0 none fr0 fw0
    ["GET /x HTTP/1.1".data] (" oops".data) []
    (by decide) (by decide) (by decide) (by decide)

/-- C7: the status line is the version label, the decimal status code and the
reason phrase separated by single spaces and terminated by CRLF, and the
reason-phrase table is 200 OK, 201 Created, 404 Not Found,
500 Internal Server Error, anything else Unknown Status. -/
theorem C7_status_line_reason_table (gz : List Char → Except Unit (List Nat))
    (lossy : List Nat → List Char) (r : Response) :
    to_http_string gz lossy r =
      r.version.to_str ++ [' '] ++ natChars r.status_code ++ [' '] ++
        reason_phrase r.status_code ++ crlf ++
        (renderHeaders (bodyAndHeaders gz lossy r).1 ++ crlf ++ crlf ++
          (bodyAndHeaders gz lossy r).2) ∧
    reason_phrase 200 = "OK".data ∧ reason_phrase 201 = "Created".data ∧
    reason_phrase 404 = "Not Found".data ∧
    reason_phrase 500 = "Internal Server Error".data ∧
    (∀ code, code ≠ 200 → code ≠ 201 → code ≠ 404 → code ≠ 500 →
      reason_phrase code = "Unknown Status".data) := by
  refine ⟨?_, by decide, by decide, by decide, by decide, ?_⟩
  · unfold to_http_string
    simp [List.append_assoc]
  · intro code hc1 hc2 hc3 hc4
    unfold reason_phrase
    rw [if_neg hc1, if_neg hc2, if_neg hc3, if_neg hc4]

/-- C7 witness: the catch-all reason phrase at code 302. -/
theorem C7_reason_witness : reason_phrase 302 = "Unknown Status".data :=
  (C7_status_line_reason_table gz0 lossy0 handle_internal_server_error).2.2.2.2.2
    302 (by decide) (by decide) (by decide) (by decide)

/-- C8: on every successful parse all stored header keys are already
lower-case (lower-casing them is a no-op), and looking up any key yields the
value of the LAST input occurrence of that (lower-cased) key — last-one-wins
on duplicates. -/
theorem C8_headers_lowercase_last_wins (input : List Char) (r : Request)
    (hp : parse_request input = .ok r) :
    (∀ kv ∈ r.headers, isLowered kv.1) ∧
    (∀ k, lookupH r.headers k =
      ((pairsOf ((rustLines input).drop 1)).reverse.find? (fun kv => kv.1 = k)).map
        (fun kv => kv.2)) := by
  obtain ⟨l, tail, hr, hh, _⟩ := parse_ok_fields input r hp
  have hdrop : (rustLines input).drop 1 = tail := by rw [hr]; rfl
  rw [hh, processLines_fst, hdrop]
  constructor
  · exact foldl_insStep_lowered _ _ (pairsOf_lowered tail) (by intro kv h; cases h)
  · intro k
    rw [lookup_foldl]
    simp [lookupH]

/-- C8 witness: duplicate `Foo`/`FOO` headers — the stored value is the last
one and the key is lower-cased. -/
theorem C8_lookup_witness :
    lookupH [(("foo".data : List Char), ("b".data : List Char))] ("foo".data) =
      some ("b".data) := by
  have h := (C8_headers_lowercase_last_wins ("GET / HTTP/1.1\nFoo: a\nFOO: b\n".data)
    ⟨.Get, "/".data, .Http1_1, [("foo".data, "b".data)], none⟩ (by decide)).2 ("foo".data)
  exact h.trans (by decide)

/-- C9: for the files route with method POST, a configured directory and a
present body, write success yields the 201 response carrying the body
verbatim and exactly the `Content-Type: application/octet-stream` header;
every failure branch (no directory, no body, create or write failure) yields
a response with an empty header map and no body. -/
theorem C9_files_post_branches (dir : Option (List Char))
    (fr : List Char → Option (List Char))
    (fw : List Char → List Char → FileWriteRes) (req : Request) (name : List Char)
    (hm : req.method = .Post) :
    (∀ d b, dir = some d → req.body = some b → fw (filePath d name) b = .ok →
      handle_file_request dir fr fw req name =
        ⟨201, req.version,
          [("Content-Type".data, "application/octet-stream".data)], some b, false⟩) ∧
    (∀ d b, dir = some d → req.body = some b → fw (filePath d name) b ≠ .ok →
      (handle_file_request dir fr fw req name).headers = [] ∧
      (handle_file_request dir fr fw req name).body = none) ∧
    (req.body = none →
      (handle_file_request dir fr fw req name).headers = [] ∧
      (handle_file_request dir fr fw req name).body = none) ∧
    (dir = none →
      (handle_file_request dir fr fw req name).headers = [] ∧
      (handle_file_request dir fr fw req name).body = none) := by
  refine ⟨?_, ?_, ?_, ?_⟩
  · intro d b hd hb hw
    subst hd
    unfold handle_file_request
    dsimp only
    rw [hm]
    dsimp only
    rw [hb]
    dsimp only
    rw [hw]
    rfl
  · intro d b hd hb hw
    subst hd
    unfold handle_file_request
    dsimp only
    rw [hm]
    dsimp only
    rw [hb]
    dsimp only
    cases hfw : fw (filePath d name) b with
    | createFailed => exact ⟨rfl, rfl⟩
    | writeFailed => exact ⟨rfl, rfl⟩
    | ok => exact absurd hfw hw
  · intro hb
    cases dir with
    | none => exact ⟨rfl, rfl⟩
    | some d =>
      unfold handle_file_request
      dsimp only
      rw [hm]
      dsimp only
      rw [hb]
      exact ⟨rfl, rfl⟩
  · intro hd
    subst hd
    exact ⟨rfl, rfl⟩

/-- C9 witness: concrete successful POST write returning 201 with the body
echoed. -/
theorem C9_created_witness :
    handle_file_request (some ("/tmp".data)) fr0 fw0
      ⟨.Post, "/files/f.txt".data, .Http1_1, [], some ("hi".data)⟩ ("f.txt".data) =
      ⟨201, .Http1_1, [("Content-Type".data, "application/octet-stream".data)],
        some ("hi".data), false⟩ :=
  (C9_files_post_branches (some ("/tmp".data)) fr0 fw0
    ⟨.Post, "/files/f.txt".data, .Http1_1, [], some ("hi".data)⟩ ("f.txt".data) rfl).1
    ("/tmp".data) ("hi".data) rfl rfl rfl

/-- C10: when no scanned header line starts with the exact case-sensitive
prefix `Content-Length:`, the tracked length stays 0 and the handler never
reads body bytes: the scan stops at the blank line leaving the rest of the
stream unread, and the response is computed from the header bytes alone. -/
theorem C10_exact_content_length_prefix (dir : Option (List Char))
    (fr : List Char → Option (List Char))
    (fw : List Char → List Char → FileWriteRes)
    (ls : List (List Char)) (rest : List Char)
    (h : ∀ l ∈ ls, '\n' ∉ l ∧ trimStr l ≠ [] ∧
      ("Content-Length:".data).isPrefixOf (l ++ crlf) = false) :
    scanH [] [] 0 (joinCRLFLines ls ++ (crlf ++ rest)) =
      .ok (joinCRLFLines ls, 0, rest) ∧
    connectionResponse dir fr fw (joinCRLFLines ls ++ (crlf ++ rest)) =
      .ok (dispatchBytes dir fr fw (joinCRLFLines ls)) := by
  have hscan : scanH [] [] 0 (joinCRLFLines ls ++ (crlf ++ rest)) =
      .ok (joinCRLFLines ls, 0, rest) := by
    rw [scanH_skip h, scanH_blank]
    simp
  refine ⟨hscan, ?_⟩
  unfold connectionResponse framedBytes
  rw [hscan]
  simp

/-- C10 witness: a lower-cased `content-length: 5` header is not matched —
the tracked length stays 0 and the 5 pending body bytes are never read. -/
theorem C10_no_body_read_witness :
    scanH [] [] 0 (joinCRLFLines ["GET / HTTP/1.1".data, "content-length: 5".data] ++
      (crlf ++ "hello".data)) =
      .ok (joinCRLFLines ["GET / HTTP/1.1".data, "content-length: 5".data], 0,
        "hello".data) ∧
    connectionResponse none fr0 fw0
      (joinCRLFLines ["GET / HTTP/1.1".data, "content-length: 5".data] ++
        (crlf ++ "hello".data)) =
      .ok (dispatchBytes none fr0 fw0
        (joinCRLFLines ["GET / HTTP/1.1".data, "content-length: 5".data])) :=
  C10_exact_content_length_prefix none fr0 fw0
    ["GET / HTTP/1.1".data, "content-length: 5".data] ("hello".data) (by decide)
